import Mathlib

/-!
Shallow embedding of the Paystack virtual-accounts demo backend
(`src/app.ts`, `src/transactions.database.ts`, the customer database and the
account database) in Lean 4.

Modelling conventions:
* JavaScript runtime values appearing in webhook payloads are modelled by
  `JVal` (JSON arrays are not needed by any claim and are omitted; for the
  property accesses performed by the code an array behaves like an object
  without the accessed keys).
* JavaScript property access `v.k` is `jget v k : Option JVal`: `none` models
  the `TypeError` thrown when `v` is `null` or `undefined`; access on a
  string, number or boolean yields `undefined` for the keys this code reads.
* JavaScript numbers are modelled by `ℚ` where the code only does exact
  arithmetic on numeric inputs; `JNum` adds the `undefined`/`NaN` poison
  values produced by `customer.walletBalance += chargeData.amount / 100`
  when `walletBalance` is absent. String-to-number coercion is not modelled
  (no claim involves a string amount).
* A store's `Map<string, T>` keyed by `id` is modelled as a `List T` in
  insertion order with `setKey` (JS `Map.set`: replace the entry with the
  same key in place, otherwise append) and `find?` lookups.
* `generateId` (timestamp + random suffix) is modelled by passing the
  generated id string as an explicit argument.
* The backing JSON file is modelled by its parsed contents
  (`List Transaction` / `List Customer`): `saveToFile` copies the in-memory
  list into the `file` field, `loadFromFile` rebuilds the map from it.
-/

/-- JavaScript/JSON runtime values as far as the webhook handler inspects
them. -/
inductive JVal where
  | jnull
  | junder
  | jbool (b : Bool)
  | jnum (q : ℚ)
  | jstr (s : String)
  | jobj (fields : List (String × JVal))

/-- JavaScript property access `v.k`. `none` = a `TypeError` is thrown
(`v` is `null` or `undefined`); `some .junder` = the property is absent. -/
def jget : JVal → String → Option JVal
  | .jnull, _ => none
  | .junder, _ => none
  | .jobj fields, k => some ((fields.lookup k).getD .junder)
  | .jbool _, _ => some .junder
  | .jnum _, _ => some .junder
  | .jstr _, _ => some .junder

/-- JS strict equality `v === s` against a string literal. -/
def jstrEq (v : JVal) (s : String) : Bool :=
  match v with
  | .jstr s2 => s2 == s
  | _ => false

/-- A JavaScript numeric slot: `undefined` (absent field), `NaN`, or an
actual number. -/
inductive JNum where
  | undef
  | nan
  | num (q : ℚ)
deriving DecidableEq

/-- JS `+` on numeric slots: any operand that is not a number poisons the
result to `NaN`. -/
def JNum.add : JNum → JNum → JNum
  | .num a, .num b => .num (a + b)
  | _, _ => .nan

/-- JS `v / 100` as performed on `chargeData.amount`. `null` coerces to `0`
and booleans to `0`/`1`; `undefined` and objects give `NaN`. Numeric-string
coercion is not modelled (no claim involves it), so strings map to `NaN`. -/
def jsDiv100 : JVal → JNum
  | .jnum q => .num (q / 100)
  | .jnull => .num 0
  | .jbool b => .num (if b then 1 / 100 else 0)
  | _ => .nan

/-- `status` values of `Transaction` (src/transactions.database.ts). -/
inductive TxStatus where
  | pending
  | completed
  | failed
deriving DecidableEq

/-- `interface Transaction` (src/transactions.database.ts). `metadata` and
`status` are optional fields. -/
structure Transaction where
  id : String
  amount : ℚ
  reference : String
  authUrl : String
  metadata : Option JVal := none
  status : Option TxStatus := none

/-- `interface Customer` (customer database source). `walletBalance` is not
declared in the interface but exists at runtime on records mutated by the
webhook handler (or loaded from a file that contains it); it is `undefined`
on records the interface describes. -/
structure Customer where
  id : String
  email : String
  firstName : String
  lastName : String
  code : String
  metadata : Option JVal := none
  walletBalance : JNum := .undef

section KeyStore

variable {α : Type} (idOf : α → String)

/-- JS `Map.set` keyed by `idOf`: replace the entry with the same key in
place, otherwise append. -/
def setKey : List α → α → List α
  | [], t => [t]
  | x :: xs, t => if idOf x = idOf t then t :: xs else x :: setKey xs t

/-- `new Map(list.map (t => [t.id, t]))`: fold `Map.set` over the list. -/
def fromList (l : List α) : List α :=
  l.foldl (fun m t => setKey idOf m t) []

end KeyStore

/-! ## Transaction store (src/transactions.database.ts) -/

/-- Argument of `TransactionDatabase.create`: `Omit<Transaction, 'id'>`
(the optional `status` key is allowed by the type even though `create`
overwrites it). -/
structure TxInput where
  amount : ℚ
  reference : String
  authUrl : String
  metadata : Option JVal := none
  status : Option TxStatus := none

/-- `Partial<Omit<Transaction, 'id'>>`: each field present (`some`) or
absent (`none`). -/
structure TxPatch where
  amount : Option ℚ := none
  reference : Option String := none
  authUrl : Option String := none
  metadata : Option (Option JVal) := none
  status : Option (Option TxStatus) := none

/-- JS spread `{ ...existing, ...updates }` for a transaction: a field key
present in `updates` wins, `id` is outside `Partial<Omit<Transaction,'id'>>`
so it stays. -/
def Transaction.merge (existing : Transaction) (p : TxPatch) : Transaction :=
  { id := existing.id
    amount := p.amount.getD existing.amount
    reference := p.reference.getD existing.reference
    authUrl := p.authUrl.getD existing.authUrl
    metadata := p.metadata.getD existing.metadata
    status := p.status.getD existing.status }

/-- A full transaction object passed where a partial is expected (the webhook
handler passes the whole mutated record to `update`): every field present.
The `id` key the runtime spread also copies carries the same value as the
record being updated, so dropping it is behaviour-preserving. -/
def Transaction.toPatch (t : Transaction) : TxPatch :=
  { amount := some t.amount
    reference := some t.reference
    authUrl := some t.authUrl
    metadata := some t.metadata
    status := some t.status }

/-- `class TransactionDatabase`: the in-memory `Map` (as an insertion-ordered
list of records with unique ids) and the parsed contents of the backing
JSON file. -/
structure TransactionDatabase where
  transactions : List Transaction
  file : List Transaction

namespace TransactionDatabase

/-- `loadFromFile` after a restart: rebuild the `Map` from the file written
by `saveToFile` (`new Map(transactions.map(t => [t.id, t]))`). -/
def load (file : List Transaction) : TransactionDatabase :=
  { transactions := fromList Transaction.id file, file := file }

/-- `create`: `{ id, ...transaction, status: 'pending' }` — the `status`
key written after the spread forces `'pending'`; insert into the map and
rewrite the whole file. The generated id is passed in as `gen`. -/
def create (db : TransactionDatabase) (gen : String) (input : TxInput) :
    Transaction × TransactionDatabase :=
  let newTransaction : Transaction :=
    { id := gen
      amount := input.amount
      reference := input.reference
      authUrl := input.authUrl
      metadata := input.metadata
      status := some .pending }
  let mem := setKey Transaction.id db.transactions newTransaction
  (newTransaction, { transactions := mem, file := mem })

/-- `findById`: exact map lookup. -/
def findById (db : TransactionDatabase) (id : String) : Option Transaction :=
  db.transactions.find? (fun t => t.id == id)

/-- `findByReference` as invoked at runtime: the webhook passes the raw
`chargeData.reference` value, compared with `===` against the stored
string field. -/
def findByReferenceJ (db : TransactionDatabase) (reference : JVal) :
    Option Transaction :=
  db.transactions.find? (fun t => jstrEq reference t.reference)

/-- `findByReference` with a string argument, as typed in the source. -/
def findByReference (db : TransactionDatabase) (reference : String) :
    Option Transaction :=
  db.findByReferenceJ (.jstr reference)

/-- `getAll`: snapshot of all records in insertion order. -/
def getAll (db : TransactionDatabase) : List Transaction :=
  db.transactions

/-- `update`: look up by id; absent → `undefined` with no side effect;
otherwise shallow-merge, replace in the map, rewrite the whole file. -/
def update (db : TransactionDatabase) (id : String) (p : TxPatch) :
    Option Transaction × TransactionDatabase :=
  match db.transactions.find? (fun t => t.id == id) with
  | none => (none, db)
  | some existing =>
    let updated := existing.merge p
    let mem := setKey Transaction.id db.transactions updated
    (some updated, { transactions := mem, file := mem })

end TransactionDatabase

/-! ## Customer store (customer database source file) -/

/-- Argument of `CustomerDatabase.create`: `Omit<Customer, 'id'>`. The
`/customer` handler also spreads a runtime-only `phoneNumber` key that no
claim reads; it is omitted. `walletBalance` is not in the interface and the
handler never passes it, so created records carry `undefined` there. -/
structure CustInput where
  email : String
  firstName : String
  lastName : String
  code : String
  metadata : Option JVal := none

/-- `Partial<Omit<Customer, 'id'>>` as spread at runtime: the webhook passes
a full customer object whose runtime `walletBalance` key is copied by the
spread even though the TypeScript interface lacks it. -/
structure CustPatch where
  email : Option String := none
  firstName : Option String := none
  lastName : Option String := none
  code : Option String := none
  metadata : Option (Option JVal) := none
  walletBalance : Option JNum := none

/-- JS spread `{ ...existing, ...updates }` for a customer. -/
def Customer.merge (existing : Customer) (p : CustPatch) : Customer :=
  { id := existing.id
    email := p.email.getD existing.email
    firstName := p.firstName.getD existing.firstName
    lastName := p.lastName.getD existing.lastName
    code := p.code.getD existing.code
    metadata := p.metadata.getD existing.metadata
    walletBalance := p.walletBalance.getD existing.walletBalance }

/-- The full customer object the webhook handler passes to `update`. -/
def Customer.toPatch (c : Customer) : CustPatch :=
  { email := some c.email
    firstName := some c.firstName
    lastName := some c.lastName
    code := some c.code
    metadata := some c.metadata
    walletBalance := some c.walletBalance }

/-- `class CustomerDatabase`: in-memory `Map` plus backing file contents. -/
structure CustomerDatabase where
  customers : List Customer
  file : List Customer

namespace CustomerDatabase

def load (file : List Customer) : CustomerDatabase :=
  { customers := fromList Customer.id file, file := file }

def create (db : CustomerDatabase) (gen : String) (input : CustInput) :
    Customer × CustomerDatabase :=
  let newCustomer : Customer :=
    { id := gen
      email := input.email
      firstName := input.firstName
      lastName := input.lastName
      code := input.code
      metadata := input.metadata
      walletBalance := .undef }
  let mem := setKey Customer.id db.customers newCustomer
  (newCustomer, { customers := mem, file := mem })

def findById (db : CustomerDatabase) (id : String) : Option Customer :=
  db.customers.find? (fun c => c.id == id)

/-- `findByCode` as invoked at runtime by the webhook: the raw
`chargeData.customer.customer_code` value compared with `===`. -/
def findByCodeJ (db : CustomerDatabase) (code : JVal) : Option Customer :=
  db.customers.find? (fun c => jstrEq code c.code)

/-- `findByCode` with a string argument, as typed in the source. -/
def findByCode (db : CustomerDatabase) (code : String) : Option Customer :=
  db.findByCodeJ (.jstr code)

def getAll (db : CustomerDatabase) : List Customer :=
  db.customers

def update (db : CustomerDatabase) (id : String) (p : CustPatch) :
    Option Customer × CustomerDatabase :=
  match db.customers.find? (fun c => c.id == id) with
  | none => (none, db)
  | some existing =>
    let updated := existing.merge p
    let mem := setKey Customer.id db.customers updated
    (some updated, { customers := mem, file := mem })

end CustomerDatabase

/-! ## HTTP handlers (src/app.ts) -/

/-- The mutable application state the handlers touch: the transaction and
customer singletons. -/
structure AppState where
  txDb : TransactionDatabase
  custDb : CustomerDatabase

/-- Webhook transaction branch: `transactionDb.findByReference(reference)`;
if found, mutate the returned (stored) object — `status = 'completed'`,
`metadata = chargeData` — and pass it whole to `update(transaction.id,
transaction)`. -/
def processTransaction (reference chargeData : JVal) (s : AppState) :
    AppState :=
  match s.txDb.findByReferenceJ reference with
  | none => s
  | some transaction =>
    let mutated :=
      { transaction with status := some .completed, metadata := some chargeData }
    { s with txDb := (s.txDb.update transaction.id mutated.toPatch).2 }

/-- Webhook customer branch: `customerDb.findByCode(code)`; if found,
`customer.walletBalance += chargeData.amount / 100` on the stored object,
then `update(customer.id, customer)`. `chargeData` is known non-`null`/
non-`undefined` here (its `reference` key was read first), so the `amount`
access cannot throw and `.getD .junder` is never taken. -/
def processCustomer (code chargeData : JVal) (s : AppState) : AppState :=
  match s.custDb.findByCodeJ code with
  | none => s
  | some customer =>
    let mutated :=
      { customer with
          walletBalance :=
            customer.walletBalance.add
              (jsDiv100 ((jget chargeData "amount").getD .junder)) }
    { s with custDb := (s.custDb.update customer.id mutated.toPatch).2 }

/-- `POST /webhook` (src/app.ts). `express.json()` in strict mode only ever
produces an object or array body, so `req.body.event` cannot throw; a
thrown `TypeError` further down (accessing a key of `null`/`undefined`)
propagates to the trailing error middleware, which responds 500 — state
mutations performed before the throw persist. Returns the HTTP status and
the resulting state. -/
def webhook (body : JVal) (s : AppState) : Nat × AppState :=
  match jget body "event" with
  | none => (500, s)
  | some ev =>
    if jstrEq ev "charge.success" then
      match jget body "data" with
      | none => (500, s)
      | some chargeData =>
        match jget chargeData "reference" with
        | none => (500, s)
        | some reference =>
          let s1 := processTransaction reference chargeData s
          match jget chargeData "customer" with
          | none => (500, s1)
          | some customer =>
            match jget customer "customer_code" with
            | none => (500, s1)
            | some code => (200, processCustomer code chargeData s1)
    else (200, s)

/-- The fields of the provider's create-customer response the `/customer`
handler reads, plus the raw payload it stores as `metadata`. -/
structure CreateCustomerData where
  first_name : String
  last_name : String
  email : String
  customer_code : String
  raw : JVal

/-- `POST /customer` (src/app.ts): falsy `response.data` → 400; otherwise
find-or-create by `customer_code`. The outbound request payload is
hardcoded and irrelevant to the state transition; the provider response is
an input, and the generated id for a possible create is `gen`. -/
def customerRoute (resp : Option CreateCustomerData) (gen : String)
    (db : CustomerDatabase) : Nat × CustomerDatabase :=
  match resp with
  | none => (400, db)
  | some d =>
    let isDuplicate := db.findByCode d.customer_code
    match isDuplicate with
    | some _ => (200, db)
    | none =>
      let db' := (db.create gen
        { email := d.email
          firstName := d.first_name
          lastName := d.last_name
          code := d.customer_code
          metadata := some d.raw }).2
      (200, db')

/-- The fields of the provider's initialize-transaction response the
handler reads. -/
structure InitPaymentData where
  authorization_url : String
  reference : String

/-- Result of `POST /initialize-payment`: the HTTP status, the amount and
email actually sent to the provider, and the resulting transaction store. -/
structure InitResult where
  status : Nat
  providerAmount : ℚ
  providerEmail : String
  db : TransactionDatabase

/-- `POST /initialize-payment` (src/app.ts): body `email`/`amount` default
to `'test@example.com'`/`50`; the provider is called with `amount * 100`
(kobo); a thrown provider call (`resp = .error`) is caught → 500; falsy
`response.data` → 400; otherwise a transaction with the major-unit amount,
the provider reference and the authorization URL is created (`gen` is the
generated id). -/
def initPayment (bodyEmail : Option String) (bodyAmount : Option ℚ)
    (resp : Except Unit (Option InitPaymentData)) (gen : String)
    (db : TransactionDatabase) : InitResult :=
  let email := bodyEmail.getD "test@example.com"
  let amount := bodyAmount.getD 50
  let providerAmount := amount * 100
  match resp with
  | .error _ =>
    { status := 500, providerAmount, providerEmail := email, db }
  | .ok none =>
    { status := 400, providerAmount, providerEmail := email, db }
  | .ok (some d) =>
    let db' := (db.create gen
      { amount := amount
        reference := d.reference
        authUrl := d.authorization_url }).2
    { status := 200, providerAmount, providerEmail := email, db := db' }

/-- Whether a `POST /webhook` body is processed without a thrown
`TypeError`: anything that is not a `charge.success` event is fine, and a
`charge.success` event is fine exactly when the accesses
`data.reference` and `data.customer.customer_code` both succeed. -/
def webhookAccepts (body : JVal) : Bool :=
  match jget body "event" with
  | none => false
  | some ev =>
    if jstrEq ev "charge.success" then
      match jget body "data" with
      | none => false
      | some chargeData =>
        match jget chargeData "reference" with
        | none => false
        | some _ =>
          match jget chargeData "customer" with
          | none => false
          | some customer => (jget customer "customer_code").isSome
    else true

/-! ## Concrete sample values used by witnesses and counterexamples -/

/-- An empty transaction store (fresh install, no `transactions.json`). -/
def txDb0 : TransactionDatabase := { transactions := [], file := [] }

/-- An empty customer store. -/
def custDb0 : CustomerDatabase := { customers := [], file := [] }

/-- Application state with both stores empty. -/
def state0 : AppState := { txDb := txDb0, custDb := custDb0 }

/-- A pending transaction with reference `"ref_123"`. -/
def tx123 : Transaction :=
  { id := "txn_1"
    amount := 50
    reference := "ref_123"
    authUrl := "https://checkout.example/xyz"
    metadata := none
    status := some .pending }

/-- A transaction store holding just `tx123`. -/
def txDb1 : TransactionDatabase := { transactions := [tx123], file := [tx123] }

/-- A customer with code `"CUS_abc"` whose runtime `walletBalance` holds the
number `10` (as after loading a `customers.json` that contains the field). -/
def custWallet : Customer :=
  { id := "cus_1"
    email := "a@b.c"
    firstName := "Ada"
    lastName := "Love"
    code := "CUS_abc"
    metadata := none
    walletBalance := .num 10 }

/-- A customer store holding just `custWallet`. -/
def custDb1 : CustomerDatabase := { customers := [custWallet], file := [custWallet] }

/-- Application state with `tx123` and `custWallet` stored. -/
def state1 : AppState := { txDb := txDb1, custDb := custDb1 }

/-- The `data` object of the spec's example webhook payload:
`{reference:"ref_123", amount:5000, customer:{customer_code:"CUS_abc"}}`. -/
def goodDataFields : List (String × JVal) :=
  [("reference", .jstr "ref_123"),
   ("amount", .jnum 5000),
   ("customer", .jobj [("customer_code", .jstr "CUS_abc")])]

/-- The fields of the spec's example webhook payload:
`{event:"charge.success", data:{reference:"ref_123", amount:5000,
customer:{customer_code:"CUS_abc"}}}`. -/
def goodBodyFields : List (String × JVal) :=
  [("event", .jstr "charge.success"), ("data", .jobj goodDataFields)]

/-- The spec's example webhook payload as a value. -/
def goodBody : JVal := .jobj goodBodyFields

/-- A `charge.success` body with no `data` key at all: `chargeData` is
`undefined` and `chargeData.reference` throws. -/
def noDataBody : JVal := .jobj [("event", .jstr "charge.success")]

/-- A `charge.success` body whose `data` carries an unknown reference and no
`customer` key: `chargeData.customer.customer_code` throws. -/
def noCustomerBody : JVal :=
  .jobj
    [("event", .jstr "charge.success"),
     ("data", .jobj [("reference", .jstr "nope")])]

/-- The `data` object of a well-formed `charge.success` payload whose
reference matches nothing. -/
def unknownRefDataFields : List (String × JVal) :=
  [("reference", .jstr "nope"),
   ("amount", .jnum 5000),
   ("customer", .jobj [("customer_code", .jstr "CUS_abc")])]

/-- The fields of a well-formed `charge.success` body whose reference
matches nothing. -/
def unknownRefBodyFields : List (String × JVal) :=
  [("event", .jstr "charge.success"), ("data", .jobj unknownRefDataFields)]

/-- A well-formed `charge.success` body whose reference matches nothing. -/
def unknownRefBody : JVal := .jobj unknownRefBodyFields

/-- A sample create input for the transaction store. -/
def txInput0 : TxInput :=
  { amount := 50
    reference := "ref_123"
    authUrl := "https://checkout.example/xyz" }

/-- A sample patch updating only `status`. -/
def patch0 : TxPatch := { status := some (some .completed) }

/-- A sample provider create-customer response. -/
def custData0 : CreateCustomerData :=
  { first_name := "Michael"
    last_name := "Orji"
    email := "orjimichael2240@gmail.com"
    customer_code := "CUS_abc"
    raw := .jobj [("customer_code", .jstr "CUS_abc")] }

/-! ## Lemmas about the keyed-map model -/

section KeyStoreLemmas

variable {α : Type} (idOf : α → String)

theorem mem_setKey_self (l : List α) (t : α) : t ∈ setKey idOf l t := by
  induction l with
  | nil => simp [setKey]
  | cons x xs ih =>
    by_cases h : idOf x = idOf t <;> simp [setKey, h, ih]

theorem find?_setKey_key (l : List α) (t : α) :
    (setKey idOf l t).find? (fun x => idOf x == idOf t) = some t := by
  induction l with
  | nil => simp [setKey, List.find?]
  | cons x xs ih =>
    by_cases h : idOf x = idOf t
    · simp [setKey, h, List.find?]
    · simp only [setKey, if_neg h]
      rw [List.find?_cons_of_neg _ (by simpa using h)]
      exact ih

/-- If `t` is the first element satisfying `p` and `t'` satisfies `p` and has
`t`'s key, then after `Map.set t'` the first element satisfying `p` is `t'`
(whatever entry got replaced, the replacement itself satisfies `p`). -/
theorem find?_setKey_of_find? (p : α → Bool) (l : List α) (t t' : α)
    (h : l.find? p = some t) (hp : p t' = true) (hid : idOf t' = idOf t) :
    (setKey idOf l t').find? p = some t' := by
  induction l with
  | nil => simp [List.find?] at h
  | cons x xs ih =>
    by_cases hpx : p x
    · rw [List.find?_cons_of_pos _ hpx] at h
      injection h with h
      subst h
      by_cases hkey : idOf x = idOf t'
      · simp [setKey, hkey, List.find?_cons_of_pos _ hp]
      · exact absurd hid.symm hkey
    · rw [List.find?_cons_of_neg _ hpx] at h
      by_cases hkey : idOf x = idOf t'
      · simp [setKey, hkey, List.find?_cons_of_pos _ hp]
      · simp only [setKey, if_neg hkey]
        rw [List.find?_cons_of_neg _ hpx]
        exact ih h

theorem countP_setKey_of_zero (p : α → Bool) (l : List α) (t : α)
    (h : l.countP p = 0) (hp : p t = true) :
    (setKey idOf l t).countP p = 1 := by
  induction l with
  | nil => simp [setKey, List.countP_cons, hp]
  | cons x xs ih =>
    rw [List.countP_cons] at h
    have hx : p x = false := by
      by_cases hc : p x <;> simp [hc] at h ⊢
    have hxs : xs.countP p = 0 := by omega
    by_cases hkey : idOf x = idOf t
    · simp [setKey, hkey, List.countP_cons, hp, hxs]
    · simp [setKey, hkey, List.countP_cons, hx, ih hxs]

theorem setKey_of_not_mem (l : List α) (t : α)
    (h : idOf t ∉ l.map idOf) : setKey idOf l t = l ++ [t] := by
  induction l with
  | nil => simp [setKey]
  | cons x xs ih =>
    simp only [List.map_cons, List.mem_cons] at h
    push_neg at h
    have hne : ¬ idOf x = idOf t := fun hh => h.1 hh.symm
    simp [setKey, hne, ih h.2]

theorem mem_map_setKey (l : List α) (t : α) (a : String)
    (h : a ∈ (setKey idOf l t).map idOf) : a = idOf t ∨ a ∈ l.map idOf := by
  induction l with
  | nil => simpa [setKey] using h
  | cons x xs ih =>
    by_cases hkey : idOf x = idOf t
    · simp only [setKey, if_pos hkey, List.map_cons, List.mem_cons] at h ⊢
      tauto
    · simp only [setKey, if_neg hkey, List.map_cons, List.mem_cons] at h ⊢
      rcases h with h | h
      · tauto
      · rcases ih h with h | h <;> tauto

theorem foldl_setKey_of_nodup (l acc : List α)
    (h : ((acc ++ l).map idOf).Nodup) :
    List.foldl (fun m t => setKey idOf m t) acc l = acc ++ l := by
  induction l generalizing acc with
  | nil => simp
  | cons t xs ih =>
    have hnotmem : idOf t ∉ acc.map idOf := by
      simp only [List.map_append, List.nodup_append, List.map_cons] at h
      intro hmem
      exact h.2.2 hmem (by simp)
    rw [List.foldl_cons, setKey_of_not_mem idOf acc t hnotmem, ih (acc ++ [t])]
    · simp
    · simpa using h

theorem fromList_of_nodup (l : List α) (h : (l.map idOf).Nodup) :
    fromList idOf l = l := by
  simpa using foldl_setKey_of_nodup idOf l [] (by simpa using h)

theorem nodup_map_setKey (l : List α) (t : α) (h : (l.map idOf).Nodup) :
    ((setKey idOf l t).map idOf).Nodup := by
  induction l with
  | nil => simp [setKey]
  | cons x xs ih =>
    simp only [List.map_cons, List.nodup_cons] at h
    by_cases hkey : idOf x = idOf t
    · simp only [setKey, if_pos hkey, List.map_cons, List.nodup_cons]
      exact ⟨fun hm => h.1 (hkey ▸ hm), h.2⟩
    · simp only [setKey, if_neg hkey, List.map_cons, List.nodup_cons]
      refine ⟨fun hm => ?_, ih h.2⟩
      rcases mem_map_setKey idOf xs t (idOf x) hm with hh | hh
      · exact hkey hh
      · exact h.1 hh

end KeyStoreLemmas

/-! ## Lemmas about the stores and handlers -/

/-- `update` called with a full record (as the webhook does) whose id is the
id of some stored record simply replaces that entry with the record. -/
theorem txUpdate_toPatch (db : TransactionDatabase)
    (i : String) (v : Transaction) (hvi : v.id = i)
    (h : ∃ x ∈ db.transactions, x.id = i) :
    db.update i v.toPatch =
      (some v,
       { transactions := setKey Transaction.id db.transactions v,
         file := setKey Transaction.id db.transactions v }) := by
  obtain ⟨x, hx, hxid⟩ := h
  have hsome : (db.transactions.find? (fun t => t.id == i)).isSome := by
    rw [List.find?_isSome]
    exact ⟨x, hx, by simpa using hxid⟩
  obtain ⟨ex, hex⟩ := Option.isSome_iff_exists.mp hsome
  have hexid : ex.id = v.id := by
    have := List.find?_some hex
    simp at this
    rw [this, hvi]
  have hmerge : ex.merge v.toPatch = v := by
    simp [Transaction.merge, Transaction.toPatch, hexid]
  unfold TransactionDatabase.update
  rw [hex]
  simp [hmerge]

theorem custUpdate_toPatch (db : CustomerDatabase)
    (i : String) (v : Customer) (hvi : v.id = i)
    (h : ∃ x ∈ db.customers, x.id = i) :
    db.update i v.toPatch =
      (some v,
       { customers := setKey Customer.id db.customers v,
         file := setKey Customer.id db.customers v }) := by
  obtain ⟨x, hx, hxid⟩ := h
  have hsome : (db.customers.find? (fun c => c.id == i)).isSome := by
    rw [List.find?_isSome]
    exact ⟨x, hx, by simpa using hxid⟩
  obtain ⟨ex, hex⟩ := Option.isSome_iff_exists.mp hsome
  have hexid : ex.id = v.id := by
    have := List.find?_some hex
    simp at this
    rw [this, hvi]
  have hmerge : ex.merge v.toPatch = v := by
    simp [Customer.merge, Customer.toPatch, hexid]
  unfold CustomerDatabase.update
  rw [hex]
  simp [hmerge]

theorem processTransaction_custDb (ref cd : JVal) (s : AppState) :
    (processTransaction ref cd s).custDb = s.custDb := by
  unfold processTransaction
  cases h : s.txDb.findByReferenceJ ref <;> simp [h]

theorem processCustomer_txDb (code cd : JVal) (s : AppState) :
    (processCustomer code cd s).txDb = s.txDb := by
  unfold processCustomer
  cases h : s.custDb.findByCodeJ code <;> simp [h]

theorem processTransaction_of_none (ref cd : JVal) (s : AppState)
    (h : s.txDb.findByReferenceJ ref = none) :
    processTransaction ref cd s = s := by
  unfold processTransaction
  rw [h]

theorem processTransaction_of_found (ref cd : JVal) (s : AppState)
    (t : Transaction) (h : s.txDb.findByReferenceJ ref = some t) :
    processTransaction ref cd s =
      { s with
          txDb :=
            { transactions :=
                setKey Transaction.id s.txDb.transactions
                  { t with status := some .completed, metadata := some cd }
              file :=
                setKey Transaction.id s.txDb.transactions
                  { t with status := some .completed, metadata := some cd } } } := by
  have hu := txUpdate_toPatch s.txDb t.id
    { t with status := some .completed, metadata := some cd } rfl
    ⟨t, List.mem_of_find?_eq_some h, rfl⟩
  unfold processTransaction
  simp only [h, hu]

theorem processCustomer_of_found (code cd : JVal) (s : AppState)
    (c : Customer) (h : s.custDb.findByCodeJ code = some c) :
    processCustomer code cd s =
      { s with
          custDb :=
            { customers :=
                setKey Customer.id s.custDb.customers
                  { c with
                      walletBalance :=
                        c.walletBalance.add
                          (jsDiv100 ((jget cd "amount").getD .junder)) }
              file :=
                setKey Customer.id s.custDb.customers
                  { c with
                      walletBalance :=
                        c.walletBalance.add
                          (jsDiv100 ((jget cd "amount").getD .junder)) } } } := by
  have hu := custUpdate_toPatch s.custDb c.id
    { c with
        walletBalance :=
          c.walletBalance.add (jsDiv100 ((jget cd "amount").getD .junder)) } rfl
    ⟨c, List.mem_of_find?_eq_some h, rfl⟩
  unfold processCustomer
  simp only [h, hu]

/-- A well-formed `charge.success` body runs both reconciliation branches
and responds 200. -/
theorem webhook_eq_of_wellFormed (bodyFields dataFields : List (String × JVal))
    (cu code : JVal) (s : AppState)
    (hevent : bodyFields.lookup "event" = some (.jstr "charge.success"))
    (hdata : bodyFields.lookup "data" = some (.jobj dataFields))
    (hcust : dataFields.lookup "customer" = some cu)
    (hcode : jget cu "customer_code" = some code) :
    webhook (.jobj bodyFields) s =
      (200,
       processCustomer code (.jobj dataFields)
         (processTransaction ((dataFields.lookup "reference").getD .junder)
           (.jobj dataFields) s)) := by
  have h1 : jget (.jobj bodyFields) "event" = some (.jstr "charge.success") := by
    simp [jget, hevent]
  have h2 : jget (.jobj bodyFields) "data" = some (.jobj dataFields) := by
    simp [jget, hdata]
  have h3 : jget (.jobj dataFields) "reference" =
      some ((dataFields.lookup "reference").getD .junder) := by
    simp [jget]
  have h4 : jget (.jobj dataFields) "customer" = some cu := by
    simp [jget, hcust]
  unfold webhook
  simp only [h1, h2, h3, h4, hcode]
  simp [jstrEq]

/-! ## Claim theorems -/

/-- C7: for every valid create input (no id field), the record returned by
the transaction store's `create` equals the input fields plus the freshly
generated id and a status of pending, `findById` on the returned id yields
that same record, and `findById` on a never-issued id (an id no stored
record carries) returns the not-found sentinel `undefined`. -/
theorem C7_create_roundtrip :
    (∀ (db : TransactionDatabase) (gen : String) (input : TxInput),
      (db.create gen input).1.id = gen ∧
      (db.create gen input).1.amount = input.amount ∧
      (db.create gen input).1.reference = input.reference ∧
      (db.create gen input).1.authUrl = input.authUrl ∧
      (db.create gen input).1.metadata = input.metadata ∧
      (db.create gen input).1.status = some TxStatus.pending ∧
      (db.create gen input).2.findById gen = some (db.create gen input).1) ∧
    (∀ (db : TransactionDatabase) (y : String),
      (∀ t ∈ db.transactions, t.id ≠ y) → db.findById y = none) := by
  constructor
  · intro db gen input
    refine ⟨rfl, rfl, rfl, rfl, rfl, rfl, ?_⟩
    have h := find?_setKey_key Transaction.id db.transactions
      { id := gen, amount := input.amount, reference := input.reference,
        authUrl := input.authUrl, metadata := input.metadata,
        status := some .pending }
    simpa [TransactionDatabase.create, TransactionDatabase.findById] using h
  · intro db y h
    unfold TransactionDatabase.findById
    rw [List.find?_eq_none]
    intro t ht
    simpa using h t ht

/-- Witness for C7: on the empty store, the not-found branch fires for a
concrete never-issued id. -/
theorem C7_create_roundtrip_witness :
    (∀ t ∈ txDb0.transactions, t.id ≠ "txn_nope") ∧
    txDb0.findById "txn_nope" = none :=
  ⟨by simp [txDb0], C7_create_roundtrip.2 txDb0 "txn_nope" (by simp [txDb0])⟩

/-- C10 (implicit): `create` unconditionally forces the stored and returned
status to pending — even an input whose optional `status` field is
`completed` or `failed` yields a record whose status is pending, both as
returned and as stored under the generated id. -/
theorem C10_create_forces_pending
    (db : TransactionDatabase) (gen : String) (input : TxInput) :
    (db.create gen input).1.status = some TxStatus.pending ∧
    (db.create gen input).2.findById gen =
      some { id := gen, amount := input.amount, reference := input.reference,
             authUrl := input.authUrl, metadata := input.metadata,
             status := some TxStatus.pending } := by
  refine ⟨rfl, ?_⟩
  have h := find?_setKey_key Transaction.id db.transactions
    { id := gen, amount := input.amount, reference := input.reference,
      authUrl := input.authUrl, metadata := input.metadata,
      status := some .pending }
  simpa [TransactionDatabase.create, TransactionDatabase.findById] using h

/-- C8: `update` on a stored id yields the shallow merge — fields present
in the patch take the patch's values, all others (including id) are
unchanged — returns it and stores it; `update` on an unknown id returns
the not-found sentinel and leaves the store (memory and file) unchanged. -/
theorem C8_update_semantics :
    (∀ (db : TransactionDatabase) (i : String) (p : TxPatch) (ex : Transaction),
      db.findById i = some ex →
      (db.update i p).1 = some (ex.merge p) ∧
      (ex.merge p).id = ex.id ∧
      (ex.merge p).amount = p.amount.getD ex.amount ∧
      (ex.merge p).reference = p.reference.getD ex.reference ∧
      (ex.merge p).authUrl = p.authUrl.getD ex.authUrl ∧
      (ex.merge p).metadata = p.metadata.getD ex.metadata ∧
      (ex.merge p).status = p.status.getD ex.status ∧
      (db.update i p).2.findById i = some (ex.merge p)) ∧
    (∀ (db : TransactionDatabase) (i : String) (p : TxPatch),
      db.findById i = none → db.update i p = (none, db)) := by
  constructor
  · intro db i p ex h
    have hex : db.transactions.find? (fun t => t.id == i) = some ex := h
    have hexid : ex.id = i := by simpa using List.find?_some hex
    subst hexid
    refine ⟨?_, rfl, rfl, rfl, rfl, rfl, rfl, ?_⟩
    · unfold TransactionDatabase.update
      rw [hex]
    · unfold TransactionDatabase.update TransactionDatabase.findById
      rw [hex]
      have h2 := find?_setKey_key Transaction.id db.transactions (ex.merge p)
      simpa [Transaction.merge] using h2
  · intro db i p h
    have hex : db.transactions.find? (fun t => t.id == i) = none := h
    unfold TransactionDatabase.update
    rw [hex]

/-- Witness for C8: a concrete store with one record, a patch touching only
`status`, and a concrete unknown id. -/
theorem C8_update_semantics_witness :
    (txDb1.findById "txn_1" = some tx123 ∧
     (txDb1.update "txn_1" patch0).1 = some (tx123.merge patch0)) ∧
    (txDb0.findById "txn_missing" = none ∧
     txDb0.update "txn_missing" patch0 = (none, txDb0)) :=
  ⟨⟨rfl, (C8_update_semantics.1 txDb1 "txn_1" patch0 tx123 rfl).1⟩,
   ⟨rfl, C8_update_semantics.2 txDb0 "txn_missing" patch0 rfl⟩⟩

/-- C9: creating a record and then simulating a restart — rebuilding the
store from the backing file `create` just wrote — yields a store whose
`getAll` contains the created record. The hypothesis that stored ids are
distinct is the `Map` key invariant every reachable store satisfies. -/
theorem C9_restart_roundtrip (db : TransactionDatabase) (gen : String)
    (input : TxInput) (h : (db.transactions.map Transaction.id).Nodup) :
    (db.create gen input).1 ∈
      (TransactionDatabase.load (db.create gen input).2.file).getAll := by
  have hnodup := nodup_map_setKey Transaction.id db.transactions
    { id := gen, amount := input.amount, reference := input.reference,
      authUrl := input.authUrl, metadata := input.metadata,
      status := some .pending } h
  unfold TransactionDatabase.create TransactionDatabase.load
    TransactionDatabase.getAll
  simp only []
  rw [fromList_of_nodup Transaction.id _ hnodup]
  exact mem_setKey_self _ _ _

/-- Witness for C9: concrete create on the empty store survives the
reload. -/
theorem C9_restart_roundtrip_witness :
    (txDb0.transactions.map Transaction.id).Nodup ∧
    (txDb0.create "txn_9" txInput0).1 ∈
      (TransactionDatabase.load (txDb0.create "txn_9" txInput0).2.file).getAll :=
  ⟨by simp [txDb0],
   C9_restart_roundtrip txDb0 "txn_9" txInput0 (by simp [txDb0])⟩

/-- C5: `POST /initialize-payment` with body amount `a` (default 50 when
absent) calls the provider with `a * 100` (minor units) and records a
transaction carrying the unconverted major-unit amount `a`, the
provider-issued reference and the authorization URL. -/
theorem C5_initPayment_conversion (bodyEmail : Option String)
    (bodyAmount : Option ℚ) (d : InitPaymentData) (gen : String)
    (db : TransactionDatabase) :
    (initPayment bodyEmail bodyAmount (.ok (some d)) gen db).providerAmount =
      bodyAmount.getD 50 * 100 ∧
    (initPayment bodyEmail bodyAmount (.ok (some d)) gen db).status = 200 ∧
    (initPayment bodyEmail bodyAmount (.ok (some d)) gen db).db.findById gen =
      some { id := gen, amount := bodyAmount.getD 50, reference := d.reference,
             authUrl := d.authorization_url, metadata := none,
             status := some TxStatus.pending } := by
  refine ⟨rfl, rfl, ?_⟩
  have h := find?_setKey_key Transaction.id db.transactions
    { id := gen, amount := bodyAmount.getD 50, reference := d.reference,
      authUrl := d.authorization_url, metadata := none,
      status := some .pending }
  simpa [initPayment, TransactionDatabase.create, TransactionDatabase.findById]
    using h

/-- C6: invoking the `/customer` handler twice with provider responses
carrying the same `customer_code`, starting from a store with no customer
of that code, leaves exactly one customer record with that code. -/
theorem C6_customer_idempotent (db : CustomerDatabase)
    (d : CreateCustomerData) (g1 g2 : String)
    (h : db.customers.countP (fun c => c.code == d.customer_code) = 0) :
    ((customerRoute (some d) g2
        (customerRoute (some d) g1 db).2).2).customers.countP
      (fun c => c.code == d.customer_code) = 1 := by
  have hall := List.countP_eq_zero.mp h
  have hfind1 : db.findByCode d.customer_code = none := by
    unfold CustomerDatabase.findByCode CustomerDatabase.findByCodeJ
    rw [List.find?_eq_none]
    intro c hc
    have := hall c hc
    simp [jstrEq] at this ⊢
    exact fun hh => this hh.symm
  set newC : Customer :=
    { id := g1, email := d.email, firstName := d.first_name,
      lastName := d.last_name, code := d.customer_code,
      metadata := some d.raw, walletBalance := .undef } with hnewC
  set db1 : CustomerDatabase :=
    { customers := setKey Customer.id db.customers newC
      file := setKey Customer.id db.customers newC } with hdb1
  have hroute1 : (customerRoute (some d) g1 db).2 = db1 := by
    unfold customerRoute
    simp only [hfind1, CustomerDatabase.create]
  have hcount1 :
      db1.customers.countP (fun c => c.code == d.customer_code) = 1 := by
    rw [hdb1]
    apply countP_setKey_of_zero Customer.id _ db.customers newC h
    simp [hnewC]
  have hmem : newC ∈ db1.customers := by
    rw [hdb1]
    exact mem_setKey_self Customer.id db.customers newC
  have hsome : ∃ c2, db1.findByCode d.customer_code = some c2 := by
    cases hf : db1.findByCode d.customer_code with
    | none =>
      exfalso
      unfold CustomerDatabase.findByCode CustomerDatabase.findByCodeJ at hf
      have := List.find?_eq_none.mp hf newC hmem
      simp [jstrEq, hnewC] at this
    | some c2 => exact ⟨c2, rfl⟩
  obtain ⟨c2, hf2⟩ := hsome
  have hroute2 : (customerRoute (some d) g2 db1).2 = db1 := by
    unfold customerRoute
    simp only [hf2]
  rw [hroute1, hroute2]
  exact hcount1

/-- Witness for C6: two concrete invocations on the empty customer store
leave exactly one record with the shared code. -/
theorem C6_customer_idempotent_witness :
    custDb0.customers.countP (fun c => c.code == custData0.customer_code) = 0 ∧
    ((customerRoute (some custData0) "cus_b"
        (customerRoute (some custData0) "cus_a" custDb0).2).2).customers.countP
      (fun c => c.code == custData0.customer_code) = 1 :=
  ⟨rfl, C6_customer_idempotent custDb0 custData0 "cus_a" "cus_b" rfl⟩

/-- C1: a `charge.success` webhook whose `data` carries reference
`"ref_123"` (and an accessible `customer.customer_code`, as the spec's
example payload does) responds 200 and leaves the transaction found by
`findByReference("ref_123")` with status completed and metadata equal to
the event's data payload, persisted via the store's `update` (the
in-memory map was rewritten to the backing file). -/
theorem C1_webhook_completes_transaction
    (s : AppState) (bodyFields dataFields : List (String × JVal))
    (cu code : JVal) (t : Transaction)
    (hevent : bodyFields.lookup "event" = some (.jstr "charge.success"))
    (hdata : bodyFields.lookup "data" = some (.jobj dataFields))
    (href : dataFields.lookup "reference" = some (.jstr "ref_123"))
    (hcust : dataFields.lookup "customer" = some cu)
    (hcode : jget cu "customer_code" = some code)
    (hfind : s.txDb.findByReference "ref_123" = some t)
    (hpending : t.status = some TxStatus.pending) :
    (webhook (.jobj bodyFields) s).1 = 200 ∧
    (webhook (.jobj bodyFields) s).2.txDb.findByReference "ref_123" =
      some { t with status := some .completed,
                    metadata := some (.jobj dataFields) } ∧
    (webhook (.jobj bodyFields) s).2.txDb.file =
      (webhook (.jobj bodyFields) s).2.txDb.transactions := by
  have hweb := webhook_eq_of_wellFormed bodyFields dataFields cu code s
    hevent hdata hcust hcode
  rw [href, Option.getD_some] at hweb
  have hfindJ : s.txDb.findByReferenceJ (.jstr "ref_123") = some t := hfind
  have hfindL : List.find? (fun x => jstrEq (.jstr "ref_123") x.reference)
      s.txDb.transactions = some t := hfindJ
  have hp : jstrEq (.jstr "ref_123") t.reference = true := by
    simpa using List.find?_some hfindL
  have hPT := processTransaction_of_found (.jstr "ref_123")
    (.jobj dataFields) s t hfindJ
  refine ⟨by simp [hweb], ?_, ?_⟩
  · simp only [hweb]
    rw [processCustomer_txDb, hPT]
    exact find?_setKey_of_find? Transaction.id
      (fun x => jstrEq (.jstr "ref_123") x.reference) s.txDb.transactions t
      { t with status := some .completed, metadata := some (.jobj dataFields) }
      hfindJ hp rfl
  · simp only [hweb]
    rw [processCustomer_txDb, hPT]

/-- Witness for C1: the spec's example payload against a store holding a
pending `"ref_123"` transaction. -/
theorem C1_webhook_completes_transaction_witness :
    goodBodyFields.lookup "event" = some (.jstr "charge.success") ∧
    state1.txDb.findByReference "ref_123" = some tx123 ∧
    tx123.status = some TxStatus.pending ∧
    ((webhook (.jobj goodBodyFields) state1).1 = 200 ∧
     (webhook (.jobj goodBodyFields) state1).2.txDb.findByReference "ref_123" =
       some { tx123 with status := some .completed,
                         metadata := some (.jobj goodDataFields) } ∧
     (webhook (.jobj goodBodyFields) state1).2.txDb.file =
       (webhook (.jobj goodBodyFields) state1).2.txDb.transactions) :=
  ⟨rfl, rfl, rfl,
   C1_webhook_completes_transaction state1 goodBodyFields goodDataFields
     (.jobj [("customer_code", .jstr "CUS_abc")]) (.jstr "CUS_abc") tx123
     rfl rfl rfl rfl rfl rfl rfl⟩

/-- C4: a `charge.success` webhook whose customer code matches a stored
customer responds 200 and persists the customer with its `walletBalance`
incremented (under JS `+`) by `amount / 100` (kobo → naira); when the
prior `walletBalance` is a number `w` the result is exactly
`w + amount / 100`. On customers created by this code `walletBalance` is
`undefined` (the field is outside the declared schema) and the JS sum is
`NaN`. -/
theorem C4_webhook_wallet
    (s : AppState) (bodyFields dataFields custFields : List (String × JVal))
    (code : String) (a : ℚ) (c : Customer)
    (hevent : bodyFields.lookup "event" = some (.jstr "charge.success"))
    (hdata : bodyFields.lookup "data" = some (.jobj dataFields))
    (hcust : dataFields.lookup "customer" = some (.jobj custFields))
    (hcode : custFields.lookup "customer_code" = some (.jstr code))
    (hamount : dataFields.lookup "amount" = some (.jnum a))
    (hfind : s.custDb.findByCode code = some c) :
    (webhook (.jobj bodyFields) s).1 = 200 ∧
    (webhook (.jobj bodyFields) s).2.custDb.findByCode code =
      some { c with walletBalance := c.walletBalance.add (.num (a / 100)) } ∧
    (∀ w, c.walletBalance = .num w →
      c.walletBalance.add (.num (a / 100)) = .num (w + a / 100)) ∧
    (webhook (.jobj bodyFields) s).2.custDb.file =
      (webhook (.jobj bodyFields) s).2.custDb.customers := by
  have hcodeJ : jget (.jobj custFields) "customer_code" =
      some (.jstr code) := by
    simp [jget, hcode]
  have hweb := webhook_eq_of_wellFormed bodyFields dataFields
    (.jobj custFields) (.jstr code) s hevent hdata hcust hcodeJ
  set s1 := processTransaction ((dataFields.lookup "reference").getD .junder)
    (.jobj dataFields) s with hs1
  have hcustDb : s1.custDb = s.custDb := processTransaction_custDb _ _ _
  have hfindJ : s1.custDb.findByCodeJ (.jstr code) = some c := by
    rw [hcustDb]
    exact hfind
  have hfindL : List.find? (fun x => jstrEq (.jstr code) x.code)
      s1.custDb.customers = some c := hfindJ
  have hp : jstrEq (.jstr code) c.code = true := by
    simpa using List.find?_some hfindL
  have hPC := processCustomer_of_found (.jstr code) (.jobj dataFields) s1 c
    hfindJ
  have hbal :
      c.walletBalance.add
        (jsDiv100 ((jget (.jobj dataFields) "amount").getD .junder)) =
      c.walletBalance.add (.num (a / 100)) := by
    simp [jget, hamount, jsDiv100]
  rw [hbal] at hPC
  refine ⟨by simp [hweb], ?_, ?_, ?_⟩
  · simp only [hweb]
    rw [hPC]
    show CustomerDatabase.findByCodeJ _ (.jstr code) = _
    rw [hcustDb]
    exact find?_setKey_of_find? Customer.id
      (fun x => jstrEq (.jstr code) x.code) s.custDb.customers c
      { c with walletBalance := c.walletBalance.add (.num (a / 100)) }
      hfind hp rfl
  · intro w hw
    rw [hw]
    simp [JNum.add]
  · simp only [hweb]
    rw [hPC, hcustDb]

/-- Witness for C4: the spec's example payload (amount 5000) against a
stored customer with code `"CUS_abc"` and numeric wallet balance 10. -/
theorem C4_webhook_wallet_witness :
    state1.custDb.findByCode "CUS_abc" = some custWallet ∧
    custWallet.walletBalance = JNum.num 10 ∧
    ((webhook (.jobj goodBodyFields) state1).1 = 200 ∧
     (webhook (.jobj goodBodyFields) state1).2.custDb.findByCode "CUS_abc" =
       some { custWallet with
                walletBalance :=
                  custWallet.walletBalance.add (.num (5000 / 100)) } ∧
     (∀ w, custWallet.walletBalance = .num w →
       custWallet.walletBalance.add (.num (5000 / 100)) =
         .num (w + 5000 / 100)) ∧
     (webhook (.jobj goodBodyFields) state1).2.custDb.file =
       (webhook (.jobj goodBodyFields) state1).2.custDb.customers) :=
  ⟨rfl, rfl,
   C4_webhook_wallet state1 goodBodyFields goodDataFields
     [("customer_code", .jstr "CUS_abc")] "CUS_abc" 5000 custWallet
     rfl rfl rfl rfl rfl rfl⟩

/-- C2 (amended): the `/webhook` handler responds 200 for every body except
a `charge.success` body whose `data` or `data.customer` is `null`/absent —
there the handler's property access throws a `TypeError` and the error
middleware responds 500. `webhookAccepts` states the exact condition. -/
theorem C2_webhook_status_characterization (body : JVal) (s : AppState) :
    (webhook body s).1 = if webhookAccepts body then 200 else 500 := by
  unfold webhook webhookAccepts
  cases hev : jget body "event" with
  | none => rfl
  | some ev =>
    cases hcs : jstrEq ev "charge.success" with
    | false => simp [hcs]
    | true =>
      simp only [hcs, if_true]
      cases hd : jget body "data" with
      | none => rfl
      | some cd =>
        cases hr : jget cd "reference" with
        | none => simp [hr]
        | some ref =>
          cases hc : jget cd "customer" with
          | none => simp [hr, hc]
          | some cu =>
            cases hk : jget cu "customer_code" with
            | none => simp [hr, hc, hk]
            | some code => simp [hr, hc, hk]

/-- Counterexample for C2 as stated: the JSON body
`{event:"charge.success"}` (a body with a missing `data` field) makes the
handler respond 500, not 200: `chargeData.reference` throws on
`undefined`. -/
theorem C2_cex_missing_data_yields_500 :
    (webhook noDataBody state0).1 = 500 ∧
    (webhook noDataBody state0).1 ≠ 200 :=
  ⟨rfl, by decide⟩

/-- C3 (amended): a `charge.success` webhook whose `data.reference` matches
no stored transaction leaves the transaction store unchanged in every case,
and responds 200 provided the payload's `data.customer.customer_code` is
accessible (as in the spec's well-formed payloads); a payload without an
accessible customer still leaves the store unchanged but yields 500. -/
theorem C3_unknown_reference (s : AppState)
    (bodyFields dataFields : List (String × JVal))
    (hevent : bodyFields.lookup "event" = some (.jstr "charge.success"))
    (hdata : bodyFields.lookup "data" = some (.jobj dataFields))
    (hnone : s.txDb.findByReferenceJ
      ((dataFields.lookup "reference").getD .junder) = none) :
    (webhook (.jobj bodyFields) s).2.txDb = s.txDb ∧
    (∀ cu code, dataFields.lookup "customer" = some cu →
      jget cu "customer_code" = some code →
      (webhook (.jobj bodyFields) s).1 = 200) := by
  have h1 : jget (.jobj bodyFields) "event" =
      some (.jstr "charge.success") := by
    simp [jget, hevent]
  have h2 : jget (.jobj bodyFields) "data" = some (.jobj dataFields) := by
    simp [jget, hdata]
  have h3 : jget (.jobj dataFields) "reference" =
      some ((dataFields.lookup "reference").getD .junder) := by
    simp [jget]
  have hPT := processTransaction_of_none
    ((dataFields.lookup "reference").getD .junder) (.jobj dataFields) s hnone
  constructor
  · unfold webhook
    simp only [h1, h2, h3, hPT, jstrEq, beq_self_eq_true, if_true]
    split
    · rfl
    · split
      · rfl
      · simp [processCustomer_txDb]
  · intro cu code hcu hk
    have hweb := webhook_eq_of_wellFormed bodyFields dataFields cu code s
      hevent hdata hcu hk
    simp [hweb]

/-- Witness for C3 (amended): a well-formed unknown-reference payload on
the empty state leaves the transaction store unchanged and yields 200. -/
theorem C3_unknown_reference_witness :
    state0.txDb.findByReferenceJ
      ((unknownRefDataFields.lookup "reference").getD .junder) = none ∧
    ((webhook (.jobj unknownRefBodyFields) state0).2.txDb = state0.txDb ∧
     (webhook (.jobj unknownRefBodyFields) state0).1 = 200) :=
  ⟨rfl,
   (C3_unknown_reference state0 unknownRefBodyFields unknownRefDataFields
     rfl rfl rfl).1,
   (C3_unknown_reference state0 unknownRefBodyFields unknownRefDataFields
     rfl rfl rfl).2 (.jobj [("customer_code", .jstr "CUS_abc")])
     (.jstr "CUS_abc") rfl rfl⟩

/-- Counterexample for C3 as stated: the `charge.success` payload
`{event:"charge.success", data:{reference:"nope"}}` matches no stored
transaction (the store is empty), leaves the store unchanged — but
responds 500, not 200, because `chargeData.customer.customer_code` throws
on `undefined`. -/
theorem C3_cex_missing_customer :
    state0.txDb.findByReferenceJ (.jstr "nope") = none ∧
    (webhook noCustomerBody state0).1 = 500 ∧
    (webhook noCustomerBody state0).1 ≠ 200 ∧
    (webhook noCustomerBody state0).2.txDb = state0.txDb :=
  ⟨rfl, rfl, by decide, rfl⟩
